import Mathlib

/-!
Verification of the stream-transformation core of the container/stream package
(streams.go): the pure text transformer (applyTransformations), the buffering
TransformWriter, the CopyToPipe task spawning, and CloseStreams error
aggregation. Byte strings are modelled as List Char; the Go code only ever
uses literal regular-expression patterns (no metacharacters with effect, no
dollar expansion in replacements), so Pattern.ReplaceAllString is embedded as
global leftmost non-overlapping literal replacement.
-/

namespace Moby

/-- A transformation rule, from streams.go: a pattern (literal, see above) and
a replacement string. -/
structure Transformation where
  pattern : List Char
  replacement : List Char
deriving DecidableEq

/-- Fuel-indexed global leftmost non-overlapping replacement. With fuel at
least the length of the string this computes Go regexp ReplaceAllString for a
literal pattern: scan left to right; at a match emit the replacement and
resume right after the matched span; an empty pattern matches at every
position, including the end. -/
def replaceAllFuel (pat repl : List Char) : Nat → List Char → List Char
  | _, [] => if pat = [] then repl else []
  | 0, s => s
  | fuel + 1, c :: rest =>
    if pat ≠ [] ∧ pat.isPrefixOf (c :: rest) then
      repl ++ replaceAllFuel pat repl fuel (List.drop pat.length (c :: rest))
    else if pat = [] then
      repl ++ c :: replaceAllFuel pat repl fuel rest
    else
      c :: replaceAllFuel pat repl fuel rest

/-- Global leftmost non-overlapping replacement of a literal pattern:
the embedding of t.Pattern.ReplaceAllString(s, t.Replacement). -/
def replaceAll (pat repl s : List Char) : List Char :=
  replaceAllFuel pat repl s.length s

/-- Embedding of applyTransformations (streams.go): fold the rules in declared
order over the string, each rule rewriting the previous rule's output. -/
def applyTransformations (s : List Char) (ts : List Transformation) : List Char :=
  ts.foldl (fun cur t => replaceAll t.pattern t.replacement cur) s

/-- The constant maxTransformLength from streams.go. -/
def maxTransformLength : Nat := 100

/-- State of a TransformWriter (streams.go): the rule list and the retained
trailing buffer. The wrapped downstream writer is passed to write explicitly. -/
structure TransformWriter where
  transformations : List Transformation
  buffer : List Char
deriving DecidableEq

/-- Result of one TransformWriter.Write call: the new writer state, the bytes
handed to the downstream writer (in a single downstream call), and the pair
returned to the caller. -/
structure WriteOut where
  tw : TransformWriter
  sent : List Char
  n : Int
  err : Option String
deriving DecidableEq

/-- Embedding of TransformWriter.Write (streams.go). The downstream writer is
abstracted by its response: down gives the (count, error) pair the wrapped
writer returns for the bytes written to it.
Go: payload := buffer ++ p; transformed := applyTransformations(payload);
buffer = payload[max(0, len(payload)-maxTransformLength):];
n, err := w.Write(transformed); return n - len(buffer), err.
Note List.drop (l.length - k) l equals the Go slice payload[max(0,len-k):]. -/
def write (tw : TransformWriter) (p : List Char)
    (down : List Char → Nat × Option String) : WriteOut :=
  let payload := tw.buffer ++ p
  let transformed := applyTransformations payload tw.transformations
  let buffer := List.drop (payload.length - maxTransformLength) payload
  let r := down transformed
  { tw := ⟨tw.transformations, buffer⟩
    sent := transformed
    n := (r.1 : Int) - (buffer.length : Int)
    err := r.2 }

/-- A fully successful downstream writer: accepts every byte, no error. -/
def sinkAll (s : List Char) : Nat × Option String := (s.length, none)

/-- Run a sequence of Write calls on a fresh TransformWriter over a fully
successful downstream writer, returning the final state and the concatenation
of everything delivered downstream. -/
def runWrites (ts : List Transformation) (chunks : List (List Char)) :
    TransformWriter × List Char :=
  chunks.foldl
    (fun st chunk =>
      ((write st.1 chunk sinkAll).tw, st.2 ++ (write st.1 chunk sinkAll).sent))
    (⟨ts, []⟩, [])

/-- The rule list of the TransformWriter tests: black to white, red to green. -/
def rulesBW : List Transformation :=
  [⟨"black".toList, "white".toList⟩, ⟨"red".toList, "green".toList⟩]

/-- First chunk of the multi-line TransformWriter test. -/
def chunkA : List Char := "The black cat is on the red mat.".toList

/-- Second chunk of the multi-line TransformWriter test. -/
def chunkB : List Char := "The red cat is on the black mat.".toList

/-- One stream direction of CopyToPipe. -/
inductive StreamDir
  | stdout
  | stderr
  | stdin
deriving DecidableEq

/-- A background copy task spawned by CopyToPipe: its direction, whether it
increments the WaitGroup before starting (wg.Add(1) before the go statement),
whether it decrements it on exit (wg.Done()), and the transformation rules of
its TransformWriter (none when the task copies verbatim with no
TransformWriter at all). -/
structure CopyTask where
  dir : StreamDir
  wgAdd : Bool
  wgDone : Bool
  rules : Option (List Transformation)
deriving DecidableEq

/-- The stdout rule set hardcoded inside CopyToPipe (streams.go). -/
def stdoutTransforms : List Transformation :=
  [⟨"\x7bblack\x7d".toList, "\x7bwhite\x7d".toList⟩]

/-- The stderr rule set hardcoded inside CopyToPipe (streams.go). -/
def stderrTransforms : List Transformation :=
  [⟨"\x7bred\x7d".toList, "\x7bgrn\x7d".toList⟩]

/-- Embedding of the task-spawning structure of Config.CopyToPipe
(streams.go): given which endpoints are present (iop.Stdout, iop.Stderr,
c.stdin, iop.Stdin), the list of spawned copy tasks in program order. The
stdout and stderr tasks go through copyFunc, which wraps the destination in a
TransformWriter with the hardcoded rules and brackets the goroutine with
wg.Add(1)/wg.Done(); the stdin goroutine copies verbatim and never touches the
WaitGroup. -/
def copyToPipe (iopStdout iopStderr cfgStdin iopStdin : Bool) : List CopyTask :=
  (if iopStdout then [⟨.stdout, true, true, some stdoutTransforms⟩] else []) ++
  (if iopStderr then [⟨.stderr, true, true, some stderrTransforms⟩] else []) ++
  (if cfgStdin && iopStdin then [⟨.stdin, false, false, none⟩] else [])

/-- The failure messages collected by Config.CloseStreams (streams.go), in
program order, given whether c.stdin is non-nil and the outcomes of
stdin.Close(), stdout.Clean() and stderr.Clean() (some message on failure). -/
def closeErrors (stdinPresent : Bool) (stdinErr stdoutErr stderrErr : Option String) :
    List String :=
  (match stdinPresent, stdinErr with
    | true, some e => ["error close stdin: " ++ e]
    | _, _ => []) ++
  (match stdoutErr with
    | some e => ["error close stdout: " ++ e]
    | none => []) ++
  (match stderrErr with
    | some e => ["error close stderr: " ++ e]
    | none => [])

/-- Embedding of Config.CloseStreams (streams.go): attempt each close/clean,
collect failures, and return the newline-joined combined error when any
occurred, nil otherwise. -/
def closeStreams (stdinPresent : Bool) (stdinErr stdoutErr stderrErr : Option String) :
    Option String :=
  let errors := closeErrors stdinPresent stdinErr stdoutErr stderrErr
  if 0 < errors.length then some (String.intercalate "\n" errors) else none

/-! Helper lemmas about replaceAllFuel and replaceAll. -/

theorem replaceAllFuel_nil (pat repl : List Char) (fuel : Nat) :
    replaceAllFuel pat repl fuel [] = if pat = [] then repl else [] := by
  cases fuel <;> rfl

theorem replaceAllFuel_succ (pat repl : List Char) (fuel : Nat) (c : Char) (rest : List Char) :
    replaceAllFuel pat repl (fuel + 1) (c :: rest) =
      if pat ≠ [] ∧ pat.isPrefixOf (c :: rest) then
        repl ++ replaceAllFuel pat repl fuel (List.drop pat.length (c :: rest))
      else if pat = [] then
        repl ++ c :: replaceAllFuel pat repl fuel rest
      else
        c :: replaceAllFuel pat repl fuel rest := rfl

theorem replaceAllFuel_congr (pat repl : List Char) :
    ∀ fuel fuel₂ s, s.length ≤ fuel → s.length ≤ fuel₂ →
      replaceAllFuel pat repl fuel s = replaceAllFuel pat repl fuel₂ s := by
  intro fuel
  induction fuel with
  | zero =>
    intro fuel₂ s hs _
    have hs0 : s = [] := List.eq_nil_of_length_eq_zero (Nat.le_zero.mp hs)
    subst hs0
    rw [replaceAllFuel_nil, replaceAllFuel_nil]
  | succ fuel ih =>
    intro fuel₂ s hs hs₂
    cases s with
    | nil => rw [replaceAllFuel_nil, replaceAllFuel_nil]
    | cons c rest =>
      cases fuel₂ with
      | zero => simp at hs₂
      | succ fuel₃ =>
        rw [replaceAllFuel_succ, replaceAllFuel_succ]
        have hrest : rest.length ≤ fuel := by
          simpa using hs
        have hrest₂ : rest.length ≤ fuel₃ := by
          simpa using hs₂
        by_cases h1 : pat ≠ [] ∧ pat.isPrefixOf (c :: rest) = true
        · rw [if_pos h1, if_pos h1]
          have hplen : 0 < pat.length := List.length_pos.mpr h1.1
          congr 1
          apply ih
          · simp only [List.length_drop, List.length_cons]
            omega
          · simp only [List.length_drop, List.length_cons]
            omega
        · rw [if_neg h1, if_neg h1]
          by_cases h2 : pat = []
          · rw [if_pos h2, if_pos h2, ih fuel₃ rest hrest hrest₂]
          · rw [if_neg h2, if_neg h2, ih fuel₃ rest hrest hrest₂]

theorem replaceAllFuel_eq_replaceAll (pat repl : List Char) (fuel : Nat) (s : List Char)
    (h : s.length ≤ fuel) :
    replaceAllFuel pat repl fuel s = replaceAll pat repl s :=
  replaceAllFuel_congr pat repl fuel s.length s h (Nat.le_refl _)

theorem replaceAll_cons_match (pat repl : List Char) (c : Char) (rest : List Char)
    (h1 : pat ≠ []) (h2 : pat.isPrefixOf (c :: rest) = true) :
    replaceAll pat repl (c :: rest)
      = repl ++ replaceAll pat repl (List.drop pat.length (c :: rest)) := by
  have hplen : 0 < pat.length := List.length_pos.mpr h1
  have hstep : replaceAll pat repl (c :: rest)
      = replaceAllFuel pat repl (rest.length + 1) (c :: rest) := rfl
  rw [hstep, replaceAllFuel_succ, if_pos ⟨h1, h2⟩]
  congr 1
  apply replaceAllFuel_eq_replaceAll
  simp only [List.length_drop, List.length_cons]
  omega

theorem replaceAll_cons_nomatch (pat repl : List Char) (c : Char) (rest : List Char)
    (h1 : pat ≠ []) (h2 : ¬ pat.isPrefixOf (c :: rest) = true) :
    replaceAll pat repl (c :: rest) = c :: replaceAll pat repl rest := by
  have hstep : replaceAll pat repl (c :: rest)
      = replaceAllFuel pat repl (rest.length + 1) (c :: rest) := rfl
  rw [hstep, replaceAllFuel_succ, if_neg (fun h => h2 h.2), if_neg h1]
  rfl

theorem replaceAll_leftmost (pat repl : List Char) :
    ∀ (i : Nat) (s : List Char), pat ≠ [] →
      pat.isPrefixOf (List.drop i s) = true →
      (∀ j, j < i → pat.isPrefixOf (List.drop j s) = false) →
      replaceAll pat repl s
        = List.take i s ++ repl ++ replaceAll pat repl (List.drop (i + pat.length) s) := by
  intro i
  induction i with
  | zero =>
    intro s h1 h2 _
    cases s with
    | nil =>
      cases pat with
      | nil => exact absurd rfl h1
      | cons p ps => simp [List.isPrefixOf] at h2
    | cons c rest =>
      rw [replaceAll_cons_match pat repl c rest h1 (by simpa using h2)]
      simp
  | succ i ih =>
    intro s h1 h2 h3
    cases s with
    | nil =>
      cases pat with
      | nil => exact absurd rfl h1
      | cons p ps => simp [List.isPrefixOf] at h2
    | cons c rest =>
      have hno : ¬ pat.isPrefixOf (c :: rest) = true := by
        have h0 := h3 0 (Nat.succ_pos i)
        rw [List.drop_zero] at h0
        rw [h0]
        exact Bool.false_ne_true
      rw [replaceAll_cons_nomatch pat repl c rest h1 hno]
      rw [List.drop_succ_cons] at h2
      have h3' : ∀ j, j < i → pat.isPrefixOf (List.drop j rest) = false := by
        intro j hj
        simpa [List.drop_succ_cons] using h3 (j + 1) (Nat.succ_lt_succ hj)
      rw [ih rest h1 h2 h3']
      have harith : i + 1 + pat.length = (i + pat.length) + 1 := by omega
      rw [harith, List.take_succ_cons, List.drop_succ_cons]
      simp

/-! Claim theorems. -/

/-- C1: split-invariance fails on the code. Already with zero rules and the
input "ab" written as the chunks "a" then "b", the successive Write calls
deliver "aab" downstream (the retained buffer is re-transformed and re-sent by
the next call, and TransformWriter has no flush operation), whereas
applyTransformations on the whole input gives "ab". -/
theorem C1_split_invariance_fails :
    (runWrites [] ["a".toList, "b".toList]).2 = "aab".toList
    ∧ applyTransformations "ab".toList [] = "ab".toList
    ∧ (runWrites [] ["a".toList, "b".toList]).2 ≠ applyTransformations "ab".toList [] := by
  decide

/-- C2: every Write forwards the entire transformed concatenation of the
retained buffer and the new chunk downstream; the new retained buffer is a
(nonempty, when the working sequence is nonempty) suffix of the pre-transform
working sequence, and the next Write again transforms and forwards it
downstream, so retained bytes are delivered a second time. The embedded
TransformWriter state offers write as its only operation, mirroring the Go
type, which has no flush or finalize method. -/
theorem C2_write_forwards_all_and_resends_retained (tw : TransformWriter) (p q : List Char)
    (down down₂ : List Char → Nat × Option String) :
    (write tw p down).sent = applyTransformations (tw.buffer ++ p) tw.transformations
    ∧ (write tw p down).tw.buffer <:+ tw.buffer ++ p
    ∧ (tw.buffer ++ p ≠ [] → (write tw p down).tw.buffer ≠ [])
    ∧ (write (write tw p down).tw q down₂).sent
        = applyTransformations ((write tw p down).tw.buffer ++ q) tw.transformations := by
  refine ⟨rfl, List.drop_suffix _ _, ?_, rfl⟩
  intro hne
  have hlen : 0 < (tw.buffer ++ p).length := List.length_pos.mpr hne
  apply List.length_pos.mp
  show 0 < (List.drop ((tw.buffer ++ p).length - maxTransformLength) (tw.buffer ++ p)).length
  rw [List.length_drop]
  have hmax : maxTransformLength = 100 := rfl
  omega

/-- C2 witness: a first Write of "a" on a fresh writer retains a nonempty
buffer. -/
theorem C2_witness : (write ⟨[], []⟩ "a".toList sinkAll).tw.buffer ≠ [] :=
  (C2_write_forwards_all_and_resends_retained ⟨[], []⟩ "a".toList "b".toList sinkAll
    sinkAll).2.2.1 (by decide)

/-- C3: with rules black→white and red→green, the first Write of chunkA sends
"The white cat is on the green mat." downstream, but the second Write of
chunkB sends the transformation of chunkA ++ chunkB — the whole 68-byte
concatenation — not only the transformed second chunk that the repository's
own TestTransformWriter_Write multi-line case expects. -/
theorem C3_second_write_resends_first_chunk :
    (write ⟨rulesBW, []⟩ chunkA sinkAll).sent
      = "The white cat is on the green mat.".toList
    ∧ (write (write ⟨rulesBW, []⟩ chunkA sinkAll).tw chunkB sinkAll).sent
      = ("The white cat is on the green mat.The green cat is on the white mat.").toList
    ∧ (write (write ⟨rulesBW, []⟩ chunkA sinkAll).tw chunkB sinkAll).sent
      ≠ "The green cat is on the white mat.".toList := by
  decide

/-- C4: the identity property fails on the code. With zero rules a
single-chunk write reproduces the input, but chunking "xy" as "x" then "y"
delivers "xxy" downstream, not the original input. -/
theorem C4_identity_fails_for_chunked_input :
    (runWrites [] ["xy".toList]).2 = "xy".toList
    ∧ (runWrites [] ["x".toList, "y".toList]).2 = "xxy".toList
    ∧ (runWrites [] ["x".toList, "y".toList]).2 ≠ "xy".toList := by
  decide

/-- C5: per-Write contract. The new retained buffer is the suffix of the
pre-transform working sequence buffer ++ chunk of length
min(len, maxTransformLength); the bytes sent downstream in the single
downstream call are exactly the transformed working sequence; the downstream
error is returned unchanged; and the returned count is the downstream-reported
count minus the length of the new retained buffer. -/
theorem C5_write_contract (tw : TransformWriter) (p : List Char)
    (down : List Char → Nat × Option String) :
    (write tw p down).tw.buffer.length = min (tw.buffer ++ p).length maxTransformLength
    ∧ List.take ((tw.buffer ++ p).length - maxTransformLength) (tw.buffer ++ p)
        ++ (write tw p down).tw.buffer = tw.buffer ++ p
    ∧ (write tw p down).sent = applyTransformations (tw.buffer ++ p) tw.transformations
    ∧ (write tw p down).err
        = (down (applyTransformations (tw.buffer ++ p) tw.transformations)).2
    ∧ (write tw p down).n
        = ((down (applyTransformations (tw.buffer ++ p) tw.transformations)).1 : Int)
          - ((write tw p down).tw.buffer.length : Int) := by
  refine ⟨?_, List.take_append_drop _ _, rfl, rfl, rfl⟩
  show (List.drop ((tw.buffer ++ p).length - maxTransformLength) (tw.buffer ++ p)).length = _
  rw [List.length_drop]
  omega

/-- C6: applyTransformations applies the rules in declared order, each rule's
output feeding the next; each rule performs a global leftmost non-overlapping
replacement (at the leftmost match the replacement is emitted and scanning
resumes immediately after the matched span); and on the concrete test input,
the single rule white→black maps "This is a white test string." to
"This is a black test string.". Determinism and purity hold by construction:
applyTransformations is a function of its arguments alone. -/
theorem C6_applyTransformations_order_leftmost_scenario :
    (∀ s t ts, applyTransformations s (t :: ts)
        = applyTransformations (replaceAll t.pattern t.replacement s) ts)
    ∧ (∀ pat repl s i, pat ≠ [] →
        pat.isPrefixOf (List.drop i s) = true →
        (∀ j, j < i → pat.isPrefixOf (List.drop j s) = false) →
        replaceAll pat repl s
          = List.take i s ++ repl ++ replaceAll pat repl (List.drop (i + pat.length) s))
    ∧ applyTransformations "This is a white test string.".toList
        [⟨"white".toList, "black".toList⟩]
      = "This is a black test string.".toList := by
  refine ⟨fun s t ts => rfl,
    fun pat repl s i h1 h2 h3 => replaceAll_leftmost pat repl i s h1 h2 h3,
    by decide⟩

/-- C6 witness: the leftmost-match characterization applied at the concrete
pattern "ab" in "xaby", whose leftmost match starts at index 1. -/
theorem C6_witness :
    replaceAll "ab".toList "Z".toList "xaby".toList
      = List.take 1 "xaby".toList ++ "Z".toList
        ++ replaceAll "ab".toList "Z".toList
            (List.drop (1 + ("ab".toList).length) "xaby".toList) :=
  C6_applyTransformations_order_leftmost_scenario.2.1 "ab".toList "Z".toList "xaby".toList 1
    (by decide) (by decide) (by decide)

/-- C7 counterexample: with all endpoints present, CopyToPipe spawns the
stdin copy task without any WaitGroup registration — its task neither
increments the counter before starting nor decrements it on exit — so not
every spawned task is tracked by the completion counter. -/
theorem C7_counterexample_stdin_task_untracked :
    CopyTask.mk .stdin false false none ∈ copyToPipe true true true true
    ∧ ((copyToPipe true true true true).all fun t => t.wgAdd && t.wgDone) = false := by
  decide

/-- C7 amended: every stdout or stderr copy task spawned by CopyToPipe
increments the WaitGroup before it starts and decrements it on exit
(success or failure), but the optional stdin task is not registered with the
WaitGroup at all, so the counter observed by Wait accounts only for the
stdout and stderr directions. -/
theorem C7_amended_only_stdout_stderr_tracked (o e s i : Bool) (t : CopyTask)
    (ht : t ∈ copyToPipe o e s i) :
    (t.dir = .stdout ∨ t.dir = .stderr → t.wgAdd = true ∧ t.wgDone = true)
    ∧ (t.dir = .stdin → t.wgAdd = false ∧ t.wgDone = false) := by
  cases o <;> cases e <;> cases s <;> cases i <;> simp [copyToPipe] at ht <;>
    rcases ht with rfl | rfl | rfl <;> decide

/-- C7 amended witness: the stdout task of a full configuration is tracked by
the WaitGroup. -/
theorem C7_amended_witness :
    ((CopyTask.mk .stdout true true (some stdoutTransforms)).dir = .stdout
        ∨ (CopyTask.mk .stdout true true (some stdoutTransforms)).dir = .stderr →
      (CopyTask.mk .stdout true true (some stdoutTransforms)).wgAdd = true
        ∧ (CopyTask.mk .stdout true true (some stdoutTransforms)).wgDone = true)
    ∧ ((CopyTask.mk .stdout true true (some stdoutTransforms)).dir = .stdin →
      (CopyTask.mk .stdout true true (some stdoutTransforms)).wgAdd = false
        ∧ (CopyTask.mk .stdout true true (some stdoutTransforms)).wgDone = false) :=
  C7_amended_only_stdout_stderr_tracked true true true true
    (CopyTask.mk .stdout true true (some stdoutTransforms)) (by decide)

/-- C8 counterexample: CopyToPipe takes no rule-set parameter; attaching an
I/O source always installs the hardcoded constants — {black}→{white} on
stdout and {red}→{grn} on stderr — which differ from a caller's choice such
as the empty rule list. -/
theorem C8_counterexample_rules_hardcoded :
    copyToPipe true true false false
      = [⟨.stdout, true, true, some stdoutTransforms⟩,
         ⟨.stderr, true, true, some stderrTransforms⟩]
    ∧ stdoutTransforms ≠ []
    ∧ stderrTransforms ≠ []
    ∧ stdoutTransforms
      = [⟨"\x7bblack\x7d".toList, "\x7bwhite\x7d".toList⟩] := by
  decide

/-- C8 amended: the transformation rule sets applied to stdout and stderr are
fixed constants inside CopyToPipe, not caller-supplied: for every attach
configuration, the stdout task carries exactly stdoutTransforms, the stderr
task exactly stderrTransforms, and the stdin task no rules at all. -/
theorem C8_amended_rules_fixed_by_component (o e s i : Bool) (t : CopyTask)
    (ht : t ∈ copyToPipe o e s i) :
    (t.dir = .stdout → t.rules = some stdoutTransforms)
    ∧ (t.dir = .stderr → t.rules = some stderrTransforms)
    ∧ (t.dir = .stdin → t.rules = none) := by
  cases o <;> cases e <;> cases s <;> cases i <;> simp [copyToPipe] at ht <;>
    rcases ht with rfl | rfl | rfl <;> decide

/-- C8 amended witness: the stderr task of a full configuration carries
exactly the hardcoded stderr rules. -/
theorem C8_amended_witness :
    ((CopyTask.mk .stderr true true (some stderrTransforms)).dir = .stdout →
      (CopyTask.mk .stderr true true (some stderrTransforms)).rules = some stdoutTransforms)
    ∧ ((CopyTask.mk .stderr true true (some stderrTransforms)).dir = .stderr →
      (CopyTask.mk .stderr true true (some stderrTransforms)).rules = some stderrTransforms)
    ∧ ((CopyTask.mk .stderr true true (some stderrTransforms)).dir = .stdin →
      (CopyTask.mk .stderr true true (some stderrTransforms)).rules = none) :=
  C8_amended_rules_fixed_by_component true true true true
    (CopyTask.mk .stderr true true (some stderrTransforms)) (by decide)

/-- C9: CloseStreams individually attempts each close/clean, collects every
failure message, and returns nil exactly when nothing failed; when at least
one operation failed it returns the single newline-joined combination of all
collected messages, each failing operation contributing its message. -/
theorem C9_closeStreams_aggregation (sp : Bool) (se oe ee : Option String) :
    (closeStreams sp se oe ee = none ↔
      (sp = true → se = none) ∧ oe = none ∧ ee = none)
    ∧ (closeErrors sp se oe ee ≠ [] →
        closeStreams sp se oe ee
          = some (String.intercalate "\n" (closeErrors sp se oe ee)))
    ∧ (∀ m, sp = true → se = some m →
        ("error close stdin: " ++ m) ∈ closeErrors sp se oe ee)
    ∧ (∀ m, oe = some m →
        ("error close stdout: " ++ m) ∈ closeErrors sp se oe ee)
    ∧ (∀ m, ee = some m →
        ("error close stderr: " ++ m) ∈ closeErrors sp se oe ee) := by
  cases sp <;> cases se <;> cases oe <;> cases ee <;>
    simp [closeStreams, closeErrors]

/-- C9 witness: with stdin present and only its close failing, CloseStreams
returns the joined (single) collected message. -/
theorem C9_witness :
    closeStreams true (some "boom") none none
      = some (String.intercalate "\n" (closeErrors true (some "boom") none none))
    ∧ ("error close stdin: " ++ "boom") ∈ closeErrors true (some "boom") none none :=
  ⟨(C9_closeStreams_aggregation true (some "boom") none none).2.1
      (by simp [closeErrors]),
    (C9_closeStreams_aggregation true (some "boom") none none).2.2.1 "boom" rfl rfl⟩

/-- C10: fully successful Write calls (downstream accepts every byte, no
error) can return a count different from the chunk length: a first Write of
the 3-byte chunk "abc" with no rules returns 0, and with the shrinking rule
ab→a a first Write of "ab" returns -1. -/
theorem C10_successful_write_count_differs_from_chunk_length :
    (write ⟨[], []⟩ "abc".toList sinkAll).err = none
    ∧ (write ⟨[], []⟩ "abc".toList sinkAll).n = 0
    ∧ ("abc".toList.length : Int) = 3
    ∧ (write ⟨[⟨"ab".toList, "a".toList⟩], []⟩ "ab".toList sinkAll).err = none
    ∧ (write ⟨[⟨"ab".toList, "a".toList⟩], []⟩ "ab".toList sinkAll).n = -1 := by
  decide

end Moby
